import Mathlib

/-!
Shallow embedding of the dropshell command shell (`src/unixsh.c`) and proofs
about its tokenizer, history store, built-in dispatch and pipeline split.

A command line is a list of characters (the buffer read by `fgets`, with the
trailing newline already removed, as `main` does via `strcspn`).  Tokens are
lists of characters.  The interactive loop of `main` is modelled as a step
function on an explicit state record; each step also reports the externally
observable action taken (which builtin ran, how many children were forked,
which error message was printed), so that claims about output and process
creation can be stated.
-/

namespace Dropshell

/-- A line of input (or a single token): a sequence of characters. -/
abbrev Line := List Char

/-- Convert a string literal to a `Line`. -/
def str (s : String) : Line := s.toList

/-- Constant `MAX_LINE` from unixsh.c: capacity of the input buffer (fgets reads at
most `MAX_LINE - 1` characters). -/
def MAX_LINE : Nat := 80

/-- Constant `MAX_ARGS` from unixsh.c: number of slots in the `args` array. -/
def MAX_ARGS : Nat := 40

/-- The delimiter set of the `strtok(input, " \t\n")` calls in `parse_input`. -/
def isDelim (c : Char) : Bool := c == ' ' || c == '\t' || c == '\n'

/-- Helper for `tokenize`: walks the characters accumulating the current
token (in reverse); a delimiter run ends the current token, and `strtok`
never produces empty tokens. -/
def tokenizeAux : List Char → List Char → List Line
  | [], cur => if cur.isEmpty then [] else [cur.reverse]
  | c :: rest, cur =>
    if isDelim c then
      if cur.isEmpty then tokenizeAux rest []
      else cur.reverse :: tokenizeAux rest []
    else tokenizeAux rest (c :: cur)

/-- The `strtok` loop of `parse_input`: split a line on runs of space, tab
and newline into its (nonempty) tokens, in order. -/
def tokenize (input : Line) : List Line := tokenizeAux input []

/-- Result of `parse_input`: the argument vector (NULL-terminated array,
modelled as a list) and the background flag. -/
structure ParseResult where
  args : List Line
  background : Bool
deriving DecidableEq, Repr

/-- Function `parse_input` from unixsh.c: tokenize, then if the array is nonempty and
its last entry is the literal `&`, drop that entry and return background 1;
otherwise return the tokens unchanged with background 0. -/
def parse_input (input : Line) : ParseResult :=
  let toks := tokenize input
  if toks.getLast? = some (str "&") then
    { args := toks.dropLast, background := true }
  else
    { args := toks, background := false }

/-- The indices of the `args` array written by `parse_input` on this input:
`args[0] .. args[n-1]` receive the `n` tokens and `args[n]` receives the
NULL sentinel (the `&`-stripping write `args[i-1] = NULL` hits an index
already in this set). -/
def argWriteIndices (input : Line) : List Nat :=
  List.range ((tokenize input).length + 1)

/-- Every write `parse_input` performs into the 40-slot `args` array stays
inside the array. -/
def WritesInBounds (input : Line) : Prop :=
  ∀ k ∈ argWriteIndices input, k < MAX_ARGS

instance (input : Line) : Decidable (WritesInBounds input) := by
  unfold WritesInBounds; infer_instance

/-- The index of the first `|` token, if any: the search loop in `main`
(lines 245-251), which breaks at the first match. -/
def findPipeIdx : List Line → Option Nat
  | [] => none
  | t :: rest =>
    if t = str "|" then some 0
    else (findPipeIdx rest).map (· + 1)

/-- Process-wide state of the shell loop: the history buffer, the
`history_available` flag and the `should_run` flag of `main`. -/
structure ShellState where
  history : Line
  history_available : Bool
  should_run : Bool
deriving DecidableEq, Repr

/-- The state at the top of `main`: empty history, not available, running. -/
def initState : ShellState :=
  { history := [], history_available := false, should_run := true }

/-- The externally observable action of one loop iteration. -/
inductive Action where
  /-- Case `strlen(input) == 0`: the iteration just continues. -/
  | emptyInput : Action
  /-- Case `!!` with `history_available == 0`: prints "No commands in history.". -/
  | noHistory : Action
  /-- Case `args[0] == NULL` after parsing: the iteration just continues. -/
  | noArgs : Action
  /-- first token `exit`: sets `should_run = 0`. -/
  | exitShell : Action
  /-- first token `cd`, `pwd`, `help` or `history`: the builtin runs in the
  shell process with the parsed argument vector. -/
  | builtin (name : Line) (args : List Line) : Action
  /-- a `|` token was found and background was requested: prints
  "Error: Pipes cannot run in background in this version.". -/
  | pipeBackgroundError : Action
  /-- Case where `execute_pipe` is called: forks two children running the left and
  right argument vectors. -/
  | pipeExec (left right : List Line) : Action
  /-- fork/exec of a single external command (background per the flag). -/
  | external (args : List Line) (background : Bool) : Action
deriving DecidableEq, Repr

/-- Number of `fork` calls performed by an action (on the OS success path):
`execute_pipe` forks twice, a plain external command forks once, every
other path forks nothing. -/
def childrenForked : Action → Nat
  | Action.pipeExec _ _ => 2
  | Action.external _ _ => 1
  | _ => 0

/-- Result of one loop iteration: the successor state, the observable
action, and the recalled line when the iteration substituted `!!`. -/
structure StepResult where
  state : ShellState
  action : Action
  recalled : Option Line
deriving DecidableEq, Repr

/-- The body of `main` from `parse_input` onwards (lines 209-281): builtin
dispatch in order, then pipe detection, then fork/exec. -/
def processCmd (st : ShellState) (input : Line) (recalled : Option Line) :
    StepResult :=
  let pr := parse_input input
  match pr.args with
  | [] => { state := st, action := Action.noArgs, recalled := recalled }
  | cmd :: _ =>
    if cmd = str "exit" then
      { state := { st with should_run := false }, action := Action.exitShell,
        recalled := recalled }
    else if cmd = str "cd" ∨ cmd = str "pwd" ∨ cmd = str "help" ∨
        cmd = str "history" then
      { state := st, action := Action.builtin cmd pr.args,
        recalled := recalled }
    else
      match findPipeIdx pr.args with
      | some i =>
        if pr.background then
          { state := st, action := Action.pipeBackgroundError,
            recalled := recalled }
        else
          { state := st,
            action := Action.pipeExec (pr.args.take i) (pr.args.drop (i + 1)),
            recalled := recalled }
      | none =>
        { state := st, action := Action.external pr.args pr.background,
          recalled := recalled }

/-- One full iteration of the `while (should_run)` loop on a line read from
stdin (newline already stripped): the empty-line check, the `!!` history
recall / history record of lines 193-207, then `processCmd`. -/
def shellStep (st : ShellState) (input : Line) : StepResult :=
  if input = [] then
    { state := st, action := Action.emptyInput, recalled := none }
  else if input = str "!!" then
    if st.history_available = false then
      { state := st, action := Action.noHistory, recalled := none }
    else
      processCmd st st.history (some st.history)
  else
    processCmd
      { st with history := input, history_available := true } input none

/-- Run the loop over a list of input lines, stopping (as `main` does) once
`should_run` is cleared. -/
def runShell : ShellState → List Line → ShellState
  | st, [] => st
  | st, l :: ls => if st.should_run then runShell (shellStep st l).state ls else st

/-- Iterate a `!!` recall `n` times from a state. -/
def iterRecall (st : ShellState) : Nat → ShellState
  | 0 => st
  | n + 1 => (shellStep (iterRecall st n) (str "!!")).state

/-- The five builtin names dispatched by `main` (lines 217-242). -/
def builtinNames : List Line :=
  [str "exit", str "cd", str "pwd", str "help", str "history"]

/-- Environment visible to `builtin_cd`: the value of `getenv("HOME")` and
which paths `chdir` succeeds on. -/
structure CdEnv where
  home : Line
  chdirOk : Line → Bool

/-- Result of `builtin_cd`: the path passed to `chdir` and whether a failure
message (`perror("cd failed")`) was printed. -/
structure CdResult where
  target : Line
  reported : Bool
deriving DecidableEq

/-- Function `builtin_cd` from unixsh.c: with no second argument, `chdir(getenv("HOME"))`
with the return value discarded; with a second argument, `chdir(args[1])`
and `perror` on failure. -/
def builtin_cd (args : List Line) (env : CdEnv) : CdResult :=
  match args.get? 1 with
  | none => { target := env.home, reported := false }
  | some p =>
    if env.chdirOk p then { target := p, reported := false }
    else { target := p, reported := true }

end Dropshell

namespace Dropshell

theorem processCmd_fields (st : ShellState) (input : Line) (r : Option Line) :
    (processCmd st input r).state.history = st.history ∧
    (processCmd st input r).state.history_available = st.history_available ∧
    (processCmd st input r).recalled = r := by
  simp only [processCmd]
  (repeat' split) <;> exact ⟨rfl, rfl, rfl⟩

theorem shellStep_nonrecall (st : ShellState) (input : Line)
    (h1 : input ≠ []) (h2 : input ≠ str "!!") :
    shellStep st input =
      processCmd { st with history := input, history_available := true }
        input none := by
  unfold shellStep
  rw [if_neg h1, if_neg h2]

theorem shellStep_recall (st : ShellState) (h : st.history_available = true) :
    shellStep st (str "!!") = processCmd st st.history (some st.history) := by
  unfold shellStep
  rw [if_neg (by decide), if_pos rfl, h]
  simp

end Dropshell

namespace Dropshell

theorem findPipeIdx_spec (args : List Line) (i : Nat)
    (h : findPipeIdx args = some i) :
    args[i]? = some (str "|") ∧ str "|" ∉ args.take i := by
  induction args generalizing i with
  | nil => simp [findPipeIdx] at h
  | cons t rest ih =>
    by_cases ht : t = str "|"
    · rw [findPipeIdx, if_pos ht] at h
      cases h
      simp [ht]
    · rw [findPipeIdx, if_neg ht] at h
      cases hrest : findPipeIdx rest with
      | none => rw [hrest] at h; simp at h
      | some i' =>
        rw [hrest] at h
        simp at h
        obtain ⟨h1, h2⟩ := ih i' hrest
        subst h
        refine ⟨by simpa using h1, ?_⟩
        simp [List.take_succ_cons, ht, h2]
        intro hc
        exact ht hc.symm

theorem findPipeIdx_mem (args : List Line) (h : str "|" ∈ args) :
    ∃ i, findPipeIdx args = some i := by
  induction args with
  | nil => simp at h
  | cons t rest ih =>
    by_cases ht : t = str "|"
    · exact ⟨0, by rw [findPipeIdx, if_pos ht]⟩
    · have : str "|" ∈ rest := by
        rcases List.mem_cons.mp h with h' | h'
        · exact absurd h'.symm ht
        · exact h'
      obtain ⟨i, hi⟩ := ih this
      exact ⟨i + 1, by rw [findPipeIdx, if_neg ht, hi]; rfl⟩

theorem findPipeIdx_none (args : List Line) (h : str "|" ∉ args) :
    findPipeIdx args = none := by
  induction args with
  | nil => rfl
  | cons t rest ih =>
    simp at h
    rw [findPipeIdx, if_neg (fun hc => h.1 hc.symm), ih h.2]
    rfl

end Dropshell

namespace Dropshell

theorem processCmd_builtin_cases (st : ShellState) (input : Line)
    (r : Option Line) (b : Line) (hb : b ∈ builtinNames)
    (hhead : (parse_input input).args.head? = some b) :
    (b = str "exit" ∧
      processCmd st input r =
        { state := { st with should_run := false }, action := Action.exitShell,
          recalled := r }) ∨
    (b ≠ str "exit" ∧
      processCmd st input r =
        { state := st, action := Action.builtin b (parse_input input).args,
          recalled := r }) := by
  cases hargs : (parse_input input).args with
  | nil => rw [hargs] at hhead; simp at hhead
  | cons cmd rest =>
    rw [hargs] at hhead
    simp at hhead
    subst hhead
    simp only [builtinNames, List.mem_cons, List.not_mem_nil, or_false] at hb
    rcases hb with hb | hb | hb | hb | hb <;> subst hb <;>
      simp only [processCmd] <;> rw [hargs] <;> dsimp only
    · left
      rw [if_pos rfl]
      exact ⟨trivial, rfl⟩
    · right
      rw [if_neg (by decide), if_pos (Or.inl rfl)]
      exact ⟨by decide, rfl⟩
    · right
      rw [if_neg (by decide), if_pos (Or.inr (Or.inl rfl))]
      exact ⟨by decide, rfl⟩
    · right
      rw [if_neg (by decide), if_pos (Or.inr (Or.inr (Or.inl rfl)))]
      exact ⟨by decide, rfl⟩
    · right
      rw [if_neg (by decide), if_pos (Or.inr (Or.inr (Or.inr rfl)))]
      exact ⟨by decide, rfl⟩

theorem head_not_builtin (input : Line) (cmd : Line) (rest : List Line)
    (hargs : (parse_input input).args = cmd :: rest)
    (hnb : ∀ b ∈ builtinNames, (parse_input input).args.head? ≠ some b) :
    cmd ≠ str "exit" ∧
      ¬(cmd = str "cd" ∨ cmd = str "pwd" ∨ cmd = str "help" ∨
        cmd = str "history") := by
  have hh : ∀ b ∈ builtinNames, cmd ≠ b := by
    intro b hb hc
    exact hnb b hb (by rw [hargs, hc]; rfl)
  refine ⟨hh _ (by decide), ?_⟩
  rintro (hc | hc | hc | hc)
  · exact hh _ (by decide) hc
  · exact hh _ (by decide) hc
  · exact hh _ (by decide) hc
  · exact hh _ (by decide) hc

theorem processCmd_pipe_bg (st : ShellState) (input : Line) (r : Option Line)
    (i : Nat)
    (hnb : ∀ b ∈ builtinNames, (parse_input input).args.head? ≠ some b)
    (hfp : findPipeIdx (parse_input input).args = some i)
    (hbg : (parse_input input).background = true) :
    processCmd st input r =
      { state := st, action := Action.pipeBackgroundError, recalled := r } := by
  cases hargs : (parse_input input).args with
  | nil => rw [hargs] at hfp; simp [findPipeIdx] at hfp
  | cons cmd rest =>
    obtain ⟨hne, hnd⟩ := head_not_builtin input cmd rest hargs hnb
    rw [hargs] at hfp
    simp only [processCmd]
    rw [hargs]
    dsimp only
    rw [if_neg hne, if_neg hnd, hfp, hbg]
    dsimp only
    rw [if_pos rfl]

theorem processCmd_pipe_fg (st : ShellState) (input : Line) (r : Option Line)
    (i : Nat)
    (hnb : ∀ b ∈ builtinNames, (parse_input input).args.head? ≠ some b)
    (hfp : findPipeIdx (parse_input input).args = some i)
    (hbg : (parse_input input).background = false) :
    processCmd st input r =
      { state := st,
        action := Action.pipeExec ((parse_input input).args.take i)
          ((parse_input input).args.drop (i + 1)),
        recalled := r } := by
  cases hargs : (parse_input input).args with
  | nil => rw [hargs] at hfp; simp [findPipeIdx] at hfp
  | cons cmd rest =>
    obtain ⟨hne, hnd⟩ := head_not_builtin input cmd rest hargs hnb
    rw [hargs] at hfp
    simp only [processCmd]
    rw [hargs]
    dsimp only
    rw [if_neg hne, if_neg hnd, hfp, hbg]
    dsimp only
    rw [if_neg (by decide)]

theorem processCmd_external (st : ShellState) (input : Line) (r : Option Line)
    (cmd : Line) (rest : List Line)
    (hargs : (parse_input input).args = cmd :: rest)
    (hnb : ∀ b ∈ builtinNames, (parse_input input).args.head? ≠ some b)
    (hnp : str "|" ∉ (parse_input input).args) :
    processCmd st input r =
      { state := st,
        action := Action.external (parse_input input).args
          (parse_input input).background,
        recalled := r } := by
  obtain ⟨hne, hnd⟩ := head_not_builtin input cmd rest hargs hnb
  have hfp : findPipeIdx (parse_input input).args = none := findPipeIdx_none _ hnp
  rw [hargs] at hfp
  simp only [processCmd]
  rw [hargs]
  dsimp only
  rw [if_neg hne, if_neg hnd, hfp]

end Dropshell

namespace Dropshell

theorem parse_input_nil :
    parse_input ([] : Line) = { args := [], background := false } := by decide

theorem shellStep_noHistory (st : ShellState)
    (h : st.history_available = false) :
    shellStep st (str "!!") =
      { state := st, action := Action.noHistory, recalled := none } := by
  unfold shellStep
  rw [if_neg (by decide), if_pos rfl, h, if_pos rfl]

theorem shellStep_recall_fields (st : ShellState) :
    (shellStep st (str "!!")).state.history = st.history ∧
    (shellStep st (str "!!")).state.history_available =
      st.history_available ∧
    (st.history_available = true →
      (shellStep st (str "!!")).recalled = some st.history) := by
  cases hav : st.history_available with
  | false =>
    rw [shellStep_noHistory st hav]
    exact ⟨rfl, hav, fun h => absurd h (by decide)⟩
  | true =>
    rw [shellStep_recall st hav]
    have hf := processCmd_fields st st.history (some st.history)
    exact ⟨hf.1, hf.2.1.trans hav, fun _ => hf.2.2⟩

theorem shellStep_record_fields (st : ShellState) (input : Line)
    (h1 : input ≠ []) (h2 : input ≠ str "!!") :
    (shellStep st input).state.history = input ∧
    (shellStep st input).state.history_available = true := by
  rw [shellStep_nonrecall st input h1 h2]
  have hf := processCmd_fields
    { st with history := input, history_available := true } input none
  exact ⟨hf.1, hf.2.1⟩

theorem iterRecall_fields (st : ShellState) (n : Nat) :
    (iterRecall st n).history = st.history ∧
    (iterRecall st n).history_available = st.history_available := by
  induction n with
  | zero => exact ⟨rfl, rfl⟩
  | succ n ih =>
    have h := shellStep_recall_fields (iterRecall st n)
    exact ⟨h.1.trans ih.1, h.2.1.trans ih.2⟩

theorem shellStep_empty (st : ShellState) :
    shellStep st [] =
      { state := st, action := Action.emptyInput, recalled := none } := by
  unfold shellStep
  rw [if_pos rfl]

theorem shellStep_inv (st : ShellState) (input : Line)
    (h : st.history ≠ str "!!") :
    (shellStep st input).state.history ≠ str "!!" := by
  by_cases h1 : input = []
  · subst h1; rw [shellStep_empty]; exact h
  · by_cases h2 : input = str "!!"
    · subst h2
      rw [(shellStep_recall_fields st).1]
      exact h
    · rw [(shellStep_record_fields st input h1 h2).1]
      exact h2

theorem runShell_inv (st : ShellState) (ls : List Line)
    (h : st.history ≠ str "!!") :
    (runShell st ls).history ≠ str "!!" := by
  induction ls generalizing st with
  | nil => exact h
  | cons l ls ih =>
    unfold runShell
    split
    · exact ih _ (shellStep_inv st l h)
    · exact h

end Dropshell

namespace Dropshell

/-- C1: for every input line whose token sequence ends in the literal `&`,
`parse_input` returns background `true` and the argument sequence is the
token sequence with that final `&` removed; for every other line it
returns background `false` and the tokens unchanged. -/
theorem parse_input_background_spec (input : Line) :
    ((tokenize input).getLast? = some (str "&") →
      parse_input input =
        { args := (tokenize input).dropLast, background := true }) ∧
    ((tokenize input).getLast? ≠ some (str "&") →
      parse_input input =
        { args := tokenize input, background := false }) := by
  constructor
  · intro h
    simp only [parse_input]
    rw [if_pos h]
  · intro h
    simp only [parse_input]
    rw [if_neg h]

theorem parse_input_background_spec_witness :
    parse_input (str "sleep 5 &") =
      { args := (tokenize (str "sleep 5 &")).dropLast, background := true } ∧
    parse_input (str "ls -l") =
      { args := tokenize (str "ls -l"), background := false } :=
  ⟨(parse_input_background_spec (str "sleep 5 &")).1 (by decide),
   (parse_input_background_spec (str "ls -l")).2 (by decide)⟩

/-- C2: after recording a non-empty, non-`!!` line `X`, any number of `!!`
recalls leave the stored history equal to `X` and each recall yields `X`;
a later record of `Y` overwrites the store and a subsequent recall yields
`Y`. -/
theorem history_recall_idempotent (st : ShellState) (X Y : Line) (n : Nat)
    (hX1 : X ≠ []) (hX2 : X ≠ str "!!")
    (hY1 : Y ≠ []) (hY2 : Y ≠ str "!!") :
    (shellStep st X).state.history = X ∧
    (shellStep st X).state.history_available = true ∧
    (iterRecall (shellStep st X).state n).history = X ∧
    (iterRecall (shellStep st X).state n).history_available = true ∧
    (shellStep (iterRecall (shellStep st X).state n) (str "!!")).recalled =
      some X ∧
    (shellStep (iterRecall (shellStep st X).state n) Y).state.history = Y ∧
    (shellStep (shellStep (iterRecall (shellStep st X).state n) Y).state
        (str "!!")).recalled = some Y := by
  obtain ⟨hrec1, hrec2⟩ := shellStep_record_fields st X hX1 hX2
  obtain ⟨hit1, hit2⟩ := iterRecall_fields (shellStep st X).state n
  have hi1 : (iterRecall (shellStep st X).state n).history = X :=
    hit1.trans hrec1
  have hi2 : (iterRecall (shellStep st X).state n).history_available = true :=
    hit2.trans hrec2
  have hrecall :=
    (shellStep_recall_fields (iterRecall (shellStep st X).state n)).2.2 hi2
  obtain ⟨hY3, hY4⟩ :=
    shellStep_record_fields (iterRecall (shellStep st X).state n) Y hY1 hY2
  have hrecallY :=
    (shellStep_recall_fields
      (shellStep (iterRecall (shellStep st X).state n) Y).state).2.2 hY4
  exact ⟨hrec1, hrec2, hi1, hi2, hrecall.trans (by rw [hi1]),
    hY3, hrecallY.trans (by rw [hY3])⟩

theorem history_recall_idempotent_witness :
    (shellStep initState (str "ls")).state.history = str "ls" ∧
    (shellStep initState (str "ls")).state.history_available = true ∧
    (iterRecall (shellStep initState (str "ls")).state 2).history =
      str "ls" ∧
    (iterRecall (shellStep initState (str "ls")).state 2).history_available =
      true ∧
    (shellStep (iterRecall (shellStep initState (str "ls")).state 2)
        (str "!!")).recalled = some (str "ls") ∧
    (shellStep (iterRecall (shellStep initState (str "ls")).state 2)
        (str "pwd -P")).state.history = str "pwd -P" ∧
    (shellStep
        (shellStep (iterRecall (shellStep initState (str "ls")).state 2)
          (str "pwd -P")).state
        (str "!!")).recalled = some (str "pwd -P") :=
  history_recall_idempotent initState (str "ls") (str "pwd -P") 2
    (by decide) (by decide) (by decide) (by decide)

/-- C3: entering `!!` when no command has been recorded prints the
no-history notice, forks nothing, and leaves the shell state (loop flag
and history) unchanged. -/
theorem recall_no_history (st : ShellState)
    (h : st.history_available = false) :
    shellStep st (str "!!") =
      { state := st, action := Action.noHistory, recalled := none } ∧
    childrenForked (shellStep st (str "!!")).action = 0 := by
  have he := shellStep_noHistory st h
  exact ⟨he, by rw [he]; rfl⟩

theorem recall_no_history_witness :
    shellStep initState (str "!!") =
      { state := initState, action := Action.noHistory, recalled := none } ∧
    childrenForked (shellStep initState (str "!!")).action = 0 :=
  recall_no_history initState rfl

/-- C9: in every state reachable from startup, the stored history line is
never the literal `!!`, because only non-`!!` inputs are recorded; hence a
recalled line can never itself trigger another recall. -/
theorem history_never_recall_literal (ls : List Line) :
    (runShell initState ls).history ≠ str "!!" :=
  runShell_inv initState ls (by decide)

/-- C10: built-in dispatch precedes pipe detection: whenever the first
parsed token is one of the five built-in names, the iteration performs the
built-in (or loop termination for `exit`) in the shell process and forks
no child, regardless of any `|` tokens later in the line. -/
theorem builtin_dispatch_precedes_pipe (st : ShellState) (input : Line)
    (b : Line) (h1 : input ≠ []) (h2 : input ≠ str "!!")
    (hb : b ∈ builtinNames)
    (hhead : (parse_input input).args.head? = some b) :
    ((shellStep st input).action = Action.exitShell ∨
      (shellStep st input).action =
        Action.builtin b (parse_input input).args) ∧
    childrenForked (shellStep st input).action = 0 := by
  rw [shellStep_nonrecall st input h1 h2]
  rcases processCmd_builtin_cases
      { st with history := input, history_available := true } input none b hb
      hhead with ⟨hbe, he⟩ | ⟨hne, he⟩
  · rw [he]; exact ⟨Or.inl rfl, rfl⟩
  · rw [he]; exact ⟨Or.inr rfl, rfl⟩

theorem builtin_dispatch_precedes_pipe_witness :
    ((shellStep initState (str "help | wc")).action = Action.exitShell ∨
      (shellStep initState (str "help | wc")).action =
        Action.builtin (str "help")
          (parse_input (str "help | wc")).args) ∧
    childrenForked (shellStep initState (str "help | wc")).action = 0 :=
  builtin_dispatch_precedes_pipe initState (str "help | wc") (str "help")
    (by decide) (by decide) (by decide) (by decide)

end Dropshell

namespace Dropshell

/-- C4 counterexample: on the line `| wc` the left side of the pipe is
empty, yet the shell reports no error condition at all: it invokes the
pipeline executor, which forks two children. -/
theorem empty_pipe_side_counterexample :
    (parse_input (str "| wc")).args.take 0 = [] ∧
    findPipeIdx (parse_input (str "| wc")).args = some 0 ∧
    (shellStep initState (str "| wc")).action =
      Action.pipeExec [] [str "wc"] ∧
    childrenForked (shellStep initState (str "| wc")).action = 2 := by
  decide

/-- C4 (amended): the shell performs no empty-side check: when a pipe
separator sits at the start or the end of the argument sequence (for a
non-builtin, non-background line), the pipeline executor is invoked with
that side empty, two children are forked, and the loop flag is unchanged
(the shell itself does not crash or stop). -/
theorem empty_pipe_side_forks (st : ShellState) (input : Line) (i : Nat)
    (h2 : input ≠ str "!!")
    (hnb : ∀ b ∈ builtinNames, (parse_input input).args.head? ≠ some b)
    (hbg : (parse_input input).background = false)
    (hfp : findPipeIdx (parse_input input).args = some i)
    (hempty : i = 0 ∨ (parse_input input).args.length = i + 1) :
    (shellStep st input).action =
      Action.pipeExec ((parse_input input).args.take i)
        ((parse_input input).args.drop (i + 1)) ∧
    ((parse_input input).args.take i = [] ∨
      (parse_input input).args.drop (i + 1) = []) ∧
    childrenForked (shellStep st input).action = 2 ∧
    (shellStep st input).state.should_run = st.should_run := by
  have h1 : input ≠ [] := by
    intro he
    rw [he] at hfp
    simp [parse_input_nil, findPipeIdx] at hfp
  rw [shellStep_nonrecall st input h1 h2]
  rw [processCmd_pipe_fg _ input none i hnb hfp hbg]
  refine ⟨rfl, ?_, rfl, rfl⟩
  rcases hempty with h | h
  · subst h
    exact Or.inl (List.take_zero _)
  · right
    rw [← h]
    simp

theorem empty_pipe_side_forks_witness :
    (shellStep initState (str "| wc")).action =
      Action.pipeExec ((parse_input (str "| wc")).args.take 0)
        ((parse_input (str "| wc")).args.drop 1) ∧
    ((parse_input (str "| wc")).args.take 0 = [] ∨
      (parse_input (str "| wc")).args.drop 1 = []) ∧
    childrenForked (shellStep initState (str "| wc")).action = 2 ∧
    (shellStep initState (str "| wc")).state.should_run =
      initState.should_run :=
  empty_pipe_side_forks initState (str "| wc") 0 (by decide) (by decide)
    (by decide) (by decide) (Or.inl rfl)

/-- C5 counterexample: the line `cd | b &` contains both a pipe separator
token and a trailing background marker, yet the shell does not print the
unsupported-combination message: built-in dispatch fires first. -/
theorem pipe_background_builtin_counterexample :
    (tokenize (str "cd | b &")).getLast? = some (str "&") ∧
    str "|" ∈ (parse_input (str "cd | b &")).args ∧
    (shellStep initState (str "cd | b &")).action ≠
      Action.pipeBackgroundError ∧
    (shellStep initState (str "cd | b &")).action =
      Action.builtin (str "cd") (parse_input (str "cd | b &")).args := by
  decide

/-- C5 (amended): for every input line whose first token is not a built-in
name, containing both a pipe separator token and a trailing background
marker, the shell prints the designated unsupported-combination message
and launches neither side of the pipeline (no child is forked). -/
theorem pipe_background_rejected (st : ShellState) (input : Line)
    (h2 : input ≠ str "!!")
    (hnb : ∀ b ∈ builtinNames, (parse_input input).args.head? ≠ some b)
    (hpipe : str "|" ∈ (parse_input input).args)
    (hbg : (parse_input input).background = true) :
    (shellStep st input).action = Action.pipeBackgroundError ∧
    childrenForked (shellStep st input).action = 0 := by
  have h1 : input ≠ [] := by
    intro he
    rw [he] at hbg
    simp [parse_input_nil] at hbg
  obtain ⟨i, hfp⟩ := findPipeIdx_mem _ hpipe
  rw [shellStep_nonrecall st input h1 h2]
  rw [processCmd_pipe_bg _ input none i hnb hfp hbg]
  exact ⟨rfl, rfl⟩

theorem pipe_background_rejected_witness :
    (shellStep initState (str "ls | wc &")).action =
      Action.pipeBackgroundError ∧
    childrenForked (shellStep initState (str "ls | wc &")).action = 0 :=
  pipe_background_rejected initState (str "ls | wc &") (by decide)
    (by decide) (by decide) (by decide)

/-- C8: for a non-builtin, non-background line containing pipe separators,
the split point is the first `|`: the left command is the tokens strictly
before it (which contain no `|`), the right command is all tokens strictly
after it, later `|` tokens included verbatim. -/
theorem pipe_split_first (st : ShellState) (input : Line) (i : Nat)
    (h2 : input ≠ str "!!")
    (hnb : ∀ b ∈ builtinNames, (parse_input input).args.head? ≠ some b)
    (hbg : (parse_input input).background = false)
    (hfp : findPipeIdx (parse_input input).args = some i) :
    (shellStep st input).action =
      Action.pipeExec ((parse_input input).args.take i)
        ((parse_input input).args.drop (i + 1)) ∧
    (parse_input input).args[i]? = some (str "|") ∧
    str "|" ∉ (parse_input input).args.take i := by
  have h1 : input ≠ [] := by
    intro he
    rw [he] at hfp
    simp [parse_input_nil, findPipeIdx] at hfp
  obtain ⟨hix, hnotake⟩ := findPipeIdx_spec _ i hfp
  rw [shellStep_nonrecall st input h1 h2]
  rw [processCmd_pipe_fg _ input none i hnb hfp hbg]
  exact ⟨rfl, hix, hnotake⟩

theorem pipe_split_first_witness :
    (shellStep initState (str "a | b | c")).action =
      Action.pipeExec ((parse_input (str "a | b | c")).args.take 1)
        ((parse_input (str "a | b | c")).args.drop 2) ∧
    (parse_input (str "a | b | c")).args[1]? = some (str "|") ∧
    str "|" ∉ (parse_input (str "a | b | c")).args.take 1 :=
  pipe_split_first initState (str "a | b | c") 1 (by decide) (by decide)
    (by decide) (by decide)

end Dropshell

namespace Dropshell

/-- A 79-character line of 40 single-character tokens: it fits the 80-byte
`fgets` buffer (`MAX_LINE`), so it is a reachable input. -/
def badLine : Line :=
  str "a a a a a a a a a a a a a a a a a a a a a a a a a a a a a a a a a a a a a a a a"

/-- C6: the tokenization loop of `parse_input` has no bound check: on a
reachable 79-character line of 40 tokens it performs a write at index 40
(the NULL sentinel), one slot past the end of the 40-pointer `args` array,
so the writes are not all in bounds and nothing is truncated. -/
theorem parse_writes_out_of_bounds :
    badLine.length = MAX_LINE - 1 ∧
    (tokenize badLine).length = MAX_ARGS ∧
    MAX_ARGS ∈ argWriteIndices badLine ∧
    ¬ WritesInBounds badLine := by decide

/-- An environment in which every `chdir` call fails (e.g. the home
directory has been removed): used to exhibit the unreported bare-`cd`
failure. -/
def noChdirEnv : CdEnv := { home := str "/root", chdirOk := fun _ => false }

/-- C7 counterexample: a bare `cd` in an environment where the change to
the home directory fails reports nothing: the return value of
`chdir(getenv("HOME"))` is discarded. -/
theorem cd_home_failure_unreported :
    (builtin_cd [str "cd"] noChdirEnv).target = noChdirEnv.home ∧
    noChdirEnv.chdirOk (builtin_cd [str "cd"] noChdirEnv).target = false ∧
    (builtin_cd [str "cd"] noChdirEnv).reported = false := by decide

/-- C7 (amended): `cd` targets the second token, or the home-directory
environment value when no second token is given, and the loop always
continues; a failed change is reported exactly when a path argument was
given — a failure of the bare-`cd` home change is silently ignored. -/
theorem cd_behavior (args : List Line) (env : CdEnv) (st : ShellState)
    (input : Line) (h2 : input ≠ str "!!")
    (hcd : (parse_input input).args.head? = some (str "cd")) :
    (builtin_cd args env).target = (args.get? 1).getD env.home ∧
    (builtin_cd args env).reported =
      (args.get? 1).elim false (fun p => !env.chdirOk p) ∧
    (shellStep st input).state.should_run = st.should_run := by
  refine ⟨?_, ?_, ?_⟩
  · unfold builtin_cd
    cases args.get? 1 with
    | none => rfl
    | some p => dsimp only; split <;> rfl
  · unfold builtin_cd
    cases hp : args.get? 1 with
    | none => rfl
    | some p =>
      dsimp only
      cases hc : env.chdirOk p <;> simp [hc]
  · have h1 : input ≠ [] := by
      intro he
      rw [he] at hcd
      simp [parse_input_nil] at hcd
    rw [shellStep_nonrecall st input h1 h2]
    rcases processCmd_builtin_cases
        { st with history := input, history_available := true } input none
        (str "cd") (by decide) hcd with ⟨hbe, he⟩ | ⟨hne, he⟩
    · exact absurd hbe (by decide)
    · rw [he]

theorem cd_behavior_witness :
    (builtin_cd [str "cd", str "/tmp"] noChdirEnv).target =
      (([str "cd", str "/tmp"].get? 1).getD noChdirEnv.home) ∧
    (builtin_cd [str "cd", str "/tmp"] noChdirEnv).reported =
      ([str "cd", str "/tmp"].get? 1).elim false
        (fun p => !noChdirEnv.chdirOk p) ∧
    (shellStep initState (str "cd /tmp")).state.should_run =
      initState.should_run :=
  cd_behavior [str "cd", str "/tmp"] noChdirEnv initState (str "cd /tmp")
    (by decide) (by decide)

end Dropshell

namespace Dropshell

theorem history_never_recall_literal_witness :
    (runShell initState [str "ls", str "!!", str "!!"]).history = str "ls" ∧
    (runShell initState [str "ls", str "!!", str "!!"]).history ≠
      str "!!" :=
  ⟨by decide, history_never_recall_literal [str "ls", str "!!", str "!!"]⟩

end Dropshell
